import Mathlib

/-!
Verification of the text-normalization and content-model core of the
`agent-identity` documentation generator (`src/docs/tex`).

Strings are modelled as `List Char` in the computational core; Python's
regex-based passes (`re.sub` over the patterns used in
`src/docs/tex/__init__.py`) are deterministic for those particular
patterns and are embedded as fuel-driven left-to-right scanners.
`String`-level wrappers mirror the Python function names.
-/

/-- The backtick character (used by the monospace span pattern). -/
def backtick : Char := Char.ofNat 96

/-- Sentinel for a captured raw LaTeX command: `"\x00CMD" + str(i) + "\x00"`. -/
def cmdPh (i : Nat) : List Char :=
  '\x00' :: 'C' :: 'M' :: 'D' :: (toString i).data ++ ['\x00']

/-- Sentinel for a captured markdown link: `"\x00LINK" + str(i) + "\x00"`. -/
def linkPh (i : Nat) : List Char :=
  '\x00' :: 'L' :: 'I' :: 'N' :: 'K' :: (toString i).data ++ ['\x00']

/-- One step of Python `str.replace`: replace every (non-overlapping,
leftmost-first) occurrence of `pat` by `rep`.  Fuel-driven; the wrapper
supplies fuel `= cs.length`, which suffices because every step consumes at
least one character of the text. -/
def replaceAllAux (pat rep : List Char) : Nat → List Char → List Char
  | 0, cs => cs
  | _ + 1, [] => []
  | fuel + 1, c :: rest =>
    if pat.isPrefixOf (c :: rest) then
      rep ++ replaceAllAux pat rep fuel (List.drop pat.length (c :: rest))
    else
      c :: replaceAllAux pat rep fuel rest

/-- Python `text.replace(pat, rep)` (for nonempty `pat`, the only use here). -/
def replaceAll (pat rep cs : List Char) : List Char :=
  replaceAllAux pat rep cs.length cs

/-- `_escape_latex` (src/docs/tex/__init__.py:4-11): the five sequential
`str.replace` calls, in source order `#`, `$`, `_`, `&`, `%`. -/
def escape_latexL (cs : List Char) : List Char :=
  replaceAll ['%'] ['\\', '%']
    (replaceAll ['&'] ['\\', '&']
      (replaceAll ['_'] ['\\', '_']
        (replaceAll ['$'] ['\\', '$']
          (replaceAll ['#'] ['\\', '#'] cs))))

/-- Close a lazily-matched one-character-delimited span, as in the regex
`X(.+?)X` (no DOTALL, so `.` excludes newline): the first content character
is forced by `+`, after which the span ends at the first following
delimiter; a newline before the delimiter makes the match fail. -/
def lazySpanClose (close : Char) (cs : List Char) : Option (List Char × List Char) :=
  match cs with
  | [] => none
  | c1 :: rest =>
    if c1 = '\n' then none
    else
      let more := rest.takeWhile fun c => !(c == close) && !(c == '\n')
      match rest.dropWhile fun c => !(c == close) && !(c == '\n') with
      | c2 :: rem => if c2 = close then some (c1 :: more, rem) else none
      | [] => none

/-- Scanner loop of the bold closer `(.+?)\*\*`: after the forced first
content character, extend lazily until the next `**`. -/
def boldCloseGo : List Char → List Char → Option (List Char × List Char)
  | acc, '*' :: '*' :: rem => some (acc, rem)
  | acc, c :: cs => if c = '\n' then none else boldCloseGo (acc ++ [c]) cs
  | _, [] => none

/-- Close a lazily-matched `\*\*(.+?)\*\*` span (content part). -/
def boldClose (cs : List Char) : Option (List Char × List Char) :=
  match cs with
  | [] => none
  | c1 :: rest => if c1 = '\n' then none else boldCloseGo [c1] rest

/-- `re.sub` pass for backtick spans: `` re.sub(r"`(.+?)`", r"\\texttt{\1}", text) ``. -/
def subTextttAux : Nat → List Char → List Char
  | 0, cs => cs
  | _ + 1, [] => []
  | fuel + 1, c :: rest =>
    if c = backtick then
      match lazySpanClose backtick rest with
      | some (content, rem) =>
        "\\texttt\x7b".data ++ content ++ '}' :: subTextttAux fuel rem
      | none => c :: subTextttAux fuel rest
    else
      c :: subTextttAux fuel rest

def subTexttt (cs : List Char) : List Char := subTextttAux cs.length cs

/-- `re.sub` pass for bold spans: `re.sub(r"\*\*(.+?)\*\*", r"\\textbf{\1}", text)`. -/
def subBoldAux : Nat → List Char → List Char
  | 0, cs => cs
  | _ + 1, [] => []
  | _ + 1, [c] => [c]
  | fuel + 1, c1 :: c2 :: rest =>
    if c1 = '*' ∧ c2 = '*' then
      match boldClose rest with
      | some (content, rem) =>
        "\\textbf\x7b".data ++ content ++ '}' :: subBoldAux fuel rem
      | none => c1 :: subBoldAux fuel (c2 :: rest)
    else
      c1 :: subBoldAux fuel (c2 :: rest)

def subBold (cs : List Char) : List Char := subBoldAux cs.length cs

/-- `re.sub` pass for italic spans: `re.sub(r"\*(.+?)\*", r"\\textit{\1}", text)`. -/
def subItalicAux : Nat → List Char → List Char
  | 0, cs => cs
  | _ + 1, [] => []
  | fuel + 1, c :: rest =>
    if c = '*' then
      match lazySpanClose '*' rest with
      | some (content, rem) =>
        "\\textit\x7b".data ++ content ++ '}' :: subItalicAux fuel rem
      | none => c :: subItalicAux fuel rest
    else
      c :: subItalicAux fuel rest

def subItalic (cs : List Char) : List Char := subItalicAux cs.length cs

/-- `_apply_formatting` (src/docs/tex/__init__.py:14-24): backtick spans
first, then bold, then italic — each a full `re.sub` pass over the result
of the previous one. -/
def apply_formattingL (cs : List Char) : List Char :=
  subItalic (subBold (subTexttt cs))

/-- Match the link pattern `\[([^\]]+)\]\(([^)]+)\)` at the head of the
input; returns `((display, url), rest-after-match)`. -/
def linkMatch (cs : List Char) : Option ((List Char × List Char) × List Char) :=
  match cs with
  | '[' :: rest =>
    let d := rest.takeWhile fun c => !(c == ']')
    if d.isEmpty then none
    else
      match rest.dropWhile fun c => !(c == ']') with
      | ']' :: '(' :: rest2 =>
        let u := rest2.takeWhile fun c => !(c == ')')
        if u.isEmpty then none
        else
          match rest2.dropWhile fun c => !(c == ')') with
          | ')' :: rem => some ((d, u), rem)
          | _ => none
      | _ => none
  | _ => none

/-- The link-extraction `re.sub` (src/docs/tex/__init__.py:31-35): each
match is replaced by a fresh `LINK` sentinel and `(display, url)` is
recorded, scanning left to right. -/
def subLinksAux : Nat → List Char → Nat → List Char × List (List Char × List Char)
  | 0, cs, _ => (cs, [])
  | _ + 1, [], _ => ([], [])
  | fuel + 1, c :: rest, i =>
    match linkMatch (c :: rest) with
    | some (du, rem) =>
      let r := subLinksAux fuel rem (i + 1)
      (linkPh i ++ r.1, du :: r.2)
    | none =>
      let r := subLinksAux fuel rest i
      (c :: r.1, r.2)

def subLinks (cs : List Char) : List Char × List (List Char × List Char) :=
  subLinksAux cs.length cs 0

/-- Match the raw-command pattern `\\[a-zA-Z]+\{[^}]*\}` at the head of the
input; returns `(matched-text, rest-after-match)`. -/
def cmdMatch (cs : List Char) : Option (List Char × List Char) :=
  match cs with
  | '\\' :: rest =>
    let letters := rest.takeWhile Char.isAlpha
    if letters.isEmpty then none
    else
      match rest.dropWhile Char.isAlpha with
      | '{' :: rest2 =>
        let body := rest2.takeWhile fun c => !(c == '}')
        match rest2.dropWhile fun c => !(c == '}') with
        | '}' :: rem => some ('\\' :: letters ++ '{' :: body ++ ['}'], rem)
        | _ => none
      | _ => none
  | _ => none

/-- The raw-LaTeX-command extraction `re.sub`
(src/docs/tex/__init__.py:38-44): each match is replaced by a fresh `CMD`
sentinel and the matched text is recorded verbatim. -/
def subCmdsAux : Nat → List Char → Nat → List Char × List (List Char)
  | 0, cs, _ => (cs, [])
  | _ + 1, [], _ => ([], [])
  | fuel + 1, c :: rest, i =>
    match cmdMatch (c :: rest) with
    | some (m, rem) =>
      let r := subCmdsAux fuel rem (i + 1)
      (cmdPh i ++ r.1, m :: r.2)
    | none =>
      let r := subCmdsAux fuel rest i
      (c :: r.1, r.2)

def subCmds (cs : List Char) : List Char × List (List Char) :=
  subCmdsAux cs.length cs 0

/-- Restore loop for `CMD` sentinels (src/docs/tex/__init__.py:50-51):
`text = text.replace(f"\x00CMD{idx}\x00", cmd)` over the enumerated list. -/
def restoreCmdsAux : List Char → Nat → List (List Char) → List Char
  | t, _, [] => t
  | t, i, cmd :: cs => restoreCmdsAux (replaceAll (cmdPh i) cmd t) (i + 1) cs

/-- The replacement text for a restored link:
`f"\\href{{{url}}}{{{escaped_display}}}"` with
`escaped_display = _apply_formatting(_escape_latex(display))`. -/
def hrefOf (display url : List Char) : List Char :=
  "\\href\x7b".data ++ url ++ "\x7d\x7b".data ++
    apply_formattingL (escape_latexL display) ++ ['}']

/-- Restore loop for `LINK` sentinels (src/docs/tex/__init__.py:54-58). -/
def restoreLinksAux : List Char → Nat → List (List Char × List Char) → List Char
  | t, _, [] => t
  | t, i, du :: ls => restoreLinksAux (replaceAll (linkPh i) (hrefOf du.1 du.2) t) (i + 1) ls

/-- `normalize_text` (src/docs/tex/__init__.py:27-60), on character lists:
extract links, extract raw commands, escape + format, restore commands,
restore links. -/
def normalize_textL (cs : List Char) : List Char :=
  let l := subLinks cs
  let m := subCmds l.1
  let t := apply_formattingL (escape_latexL m.1)
  restoreLinksAux (restoreCmdsAux t 0 m.2) 0 l.2

/-- `normalize_text` at `String` level. -/
def normalize_text (s : String) : String := ⟨normalize_textL s.data⟩

/-- `_escape_latex` at `String` level. -/
def escape_latex (s : String) : String := ⟨escape_latexL s.data⟩

/-- `_apply_formatting` at `String` level. -/
def apply_formatting (s : String) : String := ⟨apply_formattingL s.data⟩


/-! ## Content schema (src/docs/tex/models/document_content.py)

Python represents list items as `str | dict`; a dict item carries either a
`parts` list (structured form) or legacy top-level `text`/`code` keys, plus
an optional `font_size` (read with default `"small"`).  The document sink
(`doc.append(NoEscape(...))`) is modelled as the list of appended strings,
in order. -/

/-- One part of a structured list item: a dict with a `text` or a `code` key. -/
inductive ItemPart where
  | text (s : String)
  | code (s : String)
deriving DecidableEq

/-- A dict-shaped list item (`item.get("parts", [])`, `item.get("font_size",
"small")`, legacy `item.get("text", "")` / `item.get("code", "")`). -/
structure DictItem where
  parts : List ItemPart := []
  font_size : Option String := none
  text : String := ""
  code : String := ""
deriving DecidableEq

/-- `items: list[str | dict]` element. -/
inductive ListItem where
  | str (s : String)
  | dict (d : DictItem)
deriving DecidableEq

/-- ASCII whitespace stripped by Python `str.rstrip()` (the repository's
inputs are ASCII; other Unicode whitespace is not modelled). -/
def isPySpace (c : Char) : Bool :=
  c == ' ' || c == '\t' || c == '\n' || c == '\r' || c == '\x0b' || c == '\x0c'

/-- Python `s.rstrip()`. -/
def rstrip (s : String) : String := ⟨(s.data.reverse.dropWhile isPySpace).reverse⟩

/-- The fixed-width block emitted for a code payload:
`"\\begin{Verbatim}[fontsize=\\" + font_size + "]\n" + body + "\n" + "\\end{Verbatim}\n"`. -/
def verbBlock (fs body : String) : String :=
  "\\begin\x7bVerbatim\x7d[fontsize=\\" ++ fs ++ "]\n" ++ body ++ "\n\\end\x7bVerbatim\x7d\n"

/-- The loop over `parts` in `ItemizeContent.execute`
(src/docs/tex/models/document_content.py:61-78): the Boolean argument is
the `first` flag; only a text part seen while `first` is true gets the
`\item ` marker, and both kinds of part clear the flag. -/
def renderParts (fs : String) : Bool → List ItemPart → List String
  | _, [] => []
  | first, ItemPart.text t :: rest =>
    ((if first then "\\item " else "") ++ normalize_text t) :: renderParts fs false rest
  | _, ItemPart.code c :: rest =>
    verbBlock fs (rstrip c) :: renderParts fs false rest

/-- Rendering of one dict-shaped list item
(src/docs/tex/models/document_content.py:57-94): structured form when
`parts` is nonempty, otherwise the legacy top-level `text`/`code` form. -/
def renderDictItem (d : DictItem) : List String :=
  let fs := d.font_size.getD "small"
  if d.parts.isEmpty then
    ("\\item " ++ normalize_text d.text) ::
      (if d.code = "" then [] else [verbBlock fs (rstrip d.code)])
  else
    renderParts fs true d.parts

/-- Rendering of one list item (plain string or dict). -/
def renderListItem : ListItem → List String
  | ListItem.str s => ["\\item " ++ normalize_text s]
  | ListItem.dict d => renderDictItem d

/-- `ItemizeContent` model (items plus `newline` flag). -/
structure ItemizeContent where
  items : List ListItem
  newline : Bool := true
deriving DecidableEq

/-- `ItemizeContent.execute` as the list of appended strings. -/
def itemizeExecute (ic : ItemizeContent) : List String :=
  "\\begin\x7bitemize\x7d[topsep=0pt]" :: (ic.items.flatMap renderListItem) ++
    ["\\end\x7bitemize\x7d"] ++
    (if ic.newline then ["\\vspace\x7b\\baselineskip\x7d"] else [])

/-- Whether an appended string carries the list-marker (`\item ` prefix). -/
def hasItemMarker (s : String) : Bool := List.isPrefixOf "\\item ".data s.data

/-- Number of appended strings that carry the list-marker. -/
def markerCount (l : List String) : Nat := l.countP hasItemMarker

/-- Decidable cleanliness condition used by the amended marker claim: a
text part whose normalized text happens to begin with the literal `\item `
characters would be indistinguishable from a marker in the emitted string
stream. -/
def textPartClean (p : ItemPart) : Bool :=
  match p with
  | ItemPart.text t => !hasItemMarker (normalize_text t)
  | ItemPart.code _ => true

/-- `TextContent` model (the Python field `section` is `section_` here,
`section` being a Lean keyword). -/
structure TextContent where
  text : String := ""
  section_ : Option String := none
  subsection : Option String := none
  subsubsection : Option String := none
  label : Option String := none
  newline : Bool := true
deriving DecidableEq

/-- `VerbatimContent` model. -/
structure VerbatimContent where
  text : String
  newline : Bool := true
  font_size : String := "small"
deriving DecidableEq

/-- `ImageContent` model. -/
structure ImageContent where
  src : String
  caption : String
  label : Option String := none
  width : String := "0.8\\textwidth"
  placement : String := "htbp"
deriving DecidableEq

/-- `EmbededContent` model. -/
structure EmbededContent where
  src : String
deriving DecidableEq

/-- One node of `DocumentContent.content`. -/
inductive ContentNode where
  | text (t : TextContent)
  | itemize (i : ItemizeContent)
  | image (im : ImageContent)
  | verbatim (v : VerbatimContent)
  | embed (e : EmbededContent)
deriving DecidableEq

/-- A raw YAML content record: the `type` discriminator plus the union of
the fields the five pydantic models accept (absent keys are `none`). -/
structure RawRecord where
  type : String
  text : Option String := none
  section_ : Option String := none
  subsection : Option String := none
  subsubsection : Option String := none
  label : Option String := none
  newline : Option Bool := none
  font_size : Option String := none
  items : Option (List ListItem) := none
  src : Option String := none
  caption : Option String := none
  width : Option String := none
  placement : Option String := none
deriving DecidableEq

/-- `EmbededContent(**c)`: pydantic requires `src`. -/
def mkEmbededContent (r : RawRecord) : Except String EmbededContent :=
  match r.src with
  | some s => .ok ⟨s⟩
  | none => .error "EmbededContent: field src is required"

/-- `TextContent(**c)`: every field is optional or defaulted. -/
def mkTextContent (r : RawRecord) : Except String TextContent :=
  .ok ⟨r.text.getD "", r.section_, r.subsection, r.subsubsection, r.label,
    r.newline.getD true⟩

/-- `ItemizeContent(**c)`: pydantic requires `items`. -/
def mkItemizeContent (r : RawRecord) : Except String ItemizeContent :=
  match r.items with
  | some its => .ok ⟨its, r.newline.getD true⟩
  | none => .error "ItemizeContent: field items is required"

/-- `ImageContent(**c)`: pydantic requires `src` and `caption`. -/
def mkImageContent (r : RawRecord) : Except String ImageContent :=
  match r.src, r.caption with
  | some s, some c =>
    .ok ⟨s, c, r.label, r.width.getD "0.8\\textwidth", r.placement.getD "htbp"⟩
  | _, _ => .error "ImageContent: fields src and caption are required"

/-- `VerbatimContent(**c)`: pydantic requires `text`. -/
def mkVerbatimContent (r : RawRecord) : Except String VerbatimContent :=
  match r.text with
  | some t => .ok ⟨t, r.newline.getD true, r.font_size.getD "small"⟩
  | none => .error "VerbatimContent: field text is required"

/-- The content loop of `DocumentContent.from_dic`
(src/docs/tex/models/document_content.py:153-165): dispatch on the `type`
discriminator; a record whose discriminator matches no branch is passed
over without error and without appending a node. -/
def loadContent : List RawRecord → Except String (List ContentNode)
  | [] => .ok []
  | r :: rest =>
    if r.type = "embed" then
      match mkEmbededContent r with
      | .error e => .error e
      | .ok n => (loadContent rest).map fun l => ContentNode.embed n :: l
    else if r.type = "paragraph" then
      match mkTextContent r with
      | .error e => .error e
      | .ok n => (loadContent rest).map fun l => ContentNode.text n :: l
    else if r.type = "itemize" then
      match mkItemizeContent r with
      | .error e => .error e
      | .ok n => (loadContent rest).map fun l => ContentNode.itemize n :: l
    else if r.type = "image" then
      match mkImageContent r with
      | .error e => .error e
      | .ok n => (loadContent rest).map fun l => ContentNode.image n :: l
    else if r.type = "code" then
      match mkVerbatimContent r with
      | .error e => .error e
      | .ok n => (loadContent rest).map fun l => ContentNode.verbatim n :: l
    else
      loadContent rest

/-! ## Document configuration (src/docs/tex/models/document_config.py) -/

/-- `GeometryOptions` model. -/
structure GeometryOptions where
  top : String
  bottom : String
  left : String
  right : String
deriving DecidableEq

/-- `RevisionEntry` model. -/
structure RevisionEntry where
  version : String
  date : String
  description : List String
deriving DecidableEq

/-- `DocumentConfig` model (the fields relevant to rendering; file I/O and
the pylatex document object are external collaborators). -/
structure DocumentConfig where
  title : String
  author : List String
  affiliation : String
  email_domain : Option String := none
  output_file : String
  geometry_options : GeometryOptions
  preamble : List String
  content : List String
  abstract : String
  revision_history : List RevisionEntry := []
deriving DecidableEq

/-- `DocumentConfig.version` (src/docs/tex/models/document_config.py:65-70):
`revision_history[-1].version` when the history is nonempty, else `"0.1.0"`. -/
def DocumentConfig.version (cfg : DocumentConfig) : String :=
  match cfg.revision_history.getLast? with
  | some e => e.version
  | none => "0.1.0"

/-- Value of one ASCII digit character. -/
def digitVal (c : Char) : Nat := c.toNat - '0'.toNat

/-- `%Y` of CPython `_strptime`: exactly four digits. -/
def parseY4 : List Char → Option (Nat × List Char)
  | a :: b :: c :: d :: rest =>
    if a.isDigit && b.isDigit && c.isDigit && d.isDigit then
      some (1000 * digitVal a + 100 * digitVal b + 10 * digitVal c + digitVal d, rest)
    else none
  | _ => none

/-- `%m` of CPython `_strptime`: the alternation `1[0-2]|0[1-9]|[1-9]`
(one or two digits, value 1-12). -/
def parseMonth : List Char → Option (Nat × List Char)
  | '1' :: c :: rest =>
    if '0' ≤ c ∧ c ≤ '2' then some (10 + digitVal c, rest)
    else some (1, c :: rest)
  | '0' :: c :: rest =>
    if '1' ≤ c ∧ c ≤ '9' then some (digitVal c, rest) else none
  | c :: rest =>
    if '1' ≤ c ∧ c ≤ '9' then some (digitVal c, rest) else none
  | [] => none

/-- `%d` of CPython `_strptime`: the alternation `3[01]|[12]\d|0[1-9]|[1-9]`
(one or two digits, value 1-31). -/
def parseDay : List Char → Option (Nat × List Char)
  | '3' :: c :: rest =>
    if c = '0' ∨ c = '1' then some (30 + digitVal c, rest)
    else some (3, c :: rest)
  | '1' :: c :: rest =>
    if c.isDigit then some (10 + digitVal c, rest) else some (1, c :: rest)
  | '2' :: c :: rest =>
    if c.isDigit then some (20 + digitVal c, rest) else some (2, c :: rest)
  | '0' :: c :: rest =>
    if '1' ≤ c ∧ c ≤ '9' then some (digitVal c, rest) else none
  | c :: rest =>
    if '1' ≤ c ∧ c ≤ '9' then some (digitVal c, rest) else none
  | [] => none

/-- Gregorian leap year (as `calendar.isleap`, used by `datetime`). -/
def isLeap (y : Nat) : Bool := y % 4 == 0 && (y % 100 != 0 || y % 400 == 0)

/-- Days in a month, as validated by the `datetime` constructor. -/
def daysInMonth (y m : Nat) : Nat :=
  if m = 2 then (if isLeap y then 29 else 28)
  else if m = 4 ∨ m = 6 ∨ m = 9 ∨ m = 11 then 30 else 31

/-- `datetime.strptime(raw, "%Y-%m-%d")`: the pattern must consume the whole
string, and the resulting `(year, month, day)` must be a valid `datetime`
date (year at least 1, day within the month); otherwise `ValueError` is
raised, modelled as `none`. -/
def strptimeYmd (s : String) : Option (Nat × Nat × Nat) :=
  match parseY4 s.data with
  | some (y, '-' :: rest1) =>
    match parseMonth rest1 with
    | some (m, '-' :: rest2) =>
      match parseDay rest2 with
      | some (d, []) =>
        if 1 ≤ y ∧ d ≤ daysInMonth y m then some (y, m, d) else none
      | _ => none
    | _ => none
  | _ => none

/-- `%B`: full English month name. -/
def monthName : Nat → String
  | 1 => "January"
  | 2 => "February"
  | 3 => "March"
  | 4 => "April"
  | 5 => "May"
  | 6 => "June"
  | 7 => "July"
  | 8 => "August"
  | 9 => "September"
  | 10 => "October"
  | 11 => "November"
  | 12 => "December"
  | _ => ""

/-- `%d` in `strftime`: zero-padded two-digit day. -/
def pad2 (n : Nat) : String := if n < 10 then "0" ++ toString n else toString n

/-- `.strftime("%B %d, %Y")` (`%Y` prints the year unpadded on the target
platform; all dates accepted by the four-digit `%Y` parse of interest here
have four-digit years, where padding is moot). -/
def strftimeBdY (y m d : Nat) : String :=
  monthName m ++ " " ++ pad2 d ++ ", " ++ toString y

/-- `datetime.strptime(raw, "%Y-%m-%d").strftime("%B %d, %Y")` as one step:
`none` models the `ValueError` escaping `latest_date`. -/
def formatDateYmd (raw : String) : Option String :=
  (strptimeYmd raw).map fun t => strftimeBdY t.1 t.2.1 t.2.2

/-- `DocumentConfig.latest_date`
(src/docs/tex/models/document_config.py:72-78): parse and reformat the last
revision's date when the history is nonempty, else the literal `\today`. -/
def DocumentConfig.latest_date (cfg : DocumentConfig) : Option String :=
  match cfg.revision_history.getLast? with
  | some e => formatDateYmd e.date
  | none => some "\\today"

/-- The data rows of the revision-history table
(src/docs/tex/models/document_config.py:39-46): one main row per entry from
`description[0]`, then one continuation row (blank version and date cells)
per further description line.  (Python indexes `description[0]` directly;
an empty description list would raise, entries here are assumed nonempty
as in every configuration shipped with the repository.) -/
def revisionRows (revisions : List RevisionEntry) : List String :=
  revisions.flatMap fun rev =>
    (rev.version ++ " & " ++ rev.date ++ " & " ++
        normalize_text (rev.description.headD "") ++ " \\\\") ::
      (rev.description.drop 1).map fun desc => "& & " ++ normalize_text desc ++ " \\\\"

/-- `RevisionEntry.render` (src/docs/tex/models/document_config.py:24-50) as
the list of appended strings: nothing at all for an empty history, else the
fixed table header, the data rows, and the fixed footer. -/
def renderRevisions (revisions : List RevisionEntry) : List String :=
  if revisions.isEmpty then []
  else
    ["\\vspace\x7b1em\x7d", "\n",
     "\\begin\x7bcenter\x7d\\textit\x7bRevision History\x7d\\end\x7bcenter\x7d", "\n",
     "\\begin\x7bcenter\x7d", "\\small",
     "\\renewcommand\x7b\\arraystretch\x7d\x7b1.75\x7d",
     "\\begin\x7btabular\x7d\x7b@\x7b\x7drll@\x7b\x7d\x7d",
     "\\textit\x7bVersion\x7d & \\textit\x7bDate\x7d & \\textit\x7bDescription\x7d \\\\",
     "\\hline"] ++ revisionRows revisions ++
    ["\\end\x7btabular\x7d", "\\end\x7bcenter\x7d", "\n", "\\newpage"]

/-- Shape predicate written from the claim's words "the exact format
YYYY-MM-DD": four digits, a dash, two digits, a dash, two digits.  Used
only to compare the claim's wording with the code's actual parser. -/
def claimExactYmdShape (s : String) : Bool :=
  match s.data with
  | [y1, y2, y3, y4, h1, m1, m2, h2, d1, d2] =>
    y1.isDigit && y2.isDigit && y3.isDigit && y4.isDigit && h1 == '-' &&
      m1.isDigit && m2.isDigit && h2 == '-' && d1.isDigit && d2.isDigit
  | _ => false

/-! ## Concrete sample values used by witnesses and counterexamples -/

def sampleGeometry : GeometryOptions := ⟨"1in", "1in", "1in", "1in"⟩

def sampleCfgTwoRevs : DocumentConfig :=
  { title := "T", author := ["A"], affiliation := "Aff", output_file := "out",
    geometry_options := sampleGeometry, preamble := [], content := [],
    abstract := "",
    revision_history :=
      [⟨"1.0", "2024-01-01", ["init"]⟩, ⟨"1.1", "2024-02-01", ["fix a", "fix b"]⟩] }

def sampleCfgEmpty : DocumentConfig :=
  { title := "T", author := ["A"], affiliation := "Aff", output_file := "out",
    geometry_options := sampleGeometry, preamble := [], content := [],
    abstract := "", revision_history := [] }

def sampleCfgLenientDate : DocumentConfig :=
  { title := "T", author := ["A"], affiliation := "Aff", output_file := "out",
    geometry_options := sampleGeometry, preamble := [], content := [],
    abstract := "", revision_history := [⟨"1.0", "2024-1-1", ["init"]⟩] }

def sampleDictCodeFirst : DictItem := { parts := [ItemPart.code "x"] }

def sampleDictCodeTrailing : DictItem := { parts := [ItemPart.code "x "] }

def sampleDictTextFirst : DictItem :=
  { parts := [ItemPart.text "alpha", ItemPart.code "beta"] }

def unknownRecord : RawRecord := { type := "mystery" }

/-! ## Helper lemmas -/

theorem takeWhile_append_all {p : Char → Bool} {l1 : List Char} (l2 : List Char)
    (h : ∀ a ∈ l1, p a = true) :
    (l1 ++ l2).takeWhile p = l1 ++ l2.takeWhile p := by
  induction l1 with
  | nil => simp
  | cons a l ih =>
    have ha : p a = true := h a (by simp)
    simp only [List.cons_append, List.takeWhile_cons_of_pos ha]
    rw [ih fun b hb => h b (by simp [hb])]

theorem dropWhile_append_all {p : Char → Bool} {l1 : List Char} (l2 : List Char)
    (h : ∀ a ∈ l1, p a = true) :
    (l1 ++ l2).dropWhile p = l2.dropWhile p := by
  induction l1 with
  | nil => simp
  | cons a l ih =>
    have ha : p a = true := h a (by simp)
    simp only [List.cons_append, List.dropWhile_cons_of_pos ha]
    exact ih fun b hb => h b (by simp [hb])

theorem isPrefixOf_self (l : List Char) : l.isPrefixOf l = true := by
  induction l with
  | nil => rfl
  | cons a t ih => simp [List.isPrefixOf, ih]

theorem replaceAllAux_nil (pat rep : List Char) (f : Nat) :
    replaceAllAux pat rep f [] = [] := by
  cases f <;> rfl

theorem replaceAll_self (pat rep : List Char) (h : pat ≠ []) :
    replaceAll pat rep pat = rep := by
  match pat, h with
  | p :: ps, _ =>
    show replaceAllAux (p :: ps) rep (p :: ps).length (p :: ps) = rep
    rw [List.length_cons]
    rw [replaceAllAux]
    rw [if_pos (isPrefixOf_self (p :: ps))]
    rw [show List.drop (p :: ps).length (p :: ps) = [] from List.drop_length (p :: ps)]
    rw [replaceAllAux_nil]
    exact List.append_nil rep

theorem subCmdsAux_nil (f i : Nat) : subCmdsAux f [] i = ([], []) := by
  cases f <;> rfl

theorem cmdMatch_single (nm ar : List Char) (hnm : nm ≠ [])
    (halpha : ∀ c ∈ nm, c.isAlpha = true)
    (har : ∀ c ∈ ar, (c == '}') = false) :
    cmdMatch ('\\' :: (nm ++ '{' :: (ar ++ ['}'])))
      = some ('\\' :: (nm ++ '{' :: (ar ++ ['}'])), []) := by
  have h1 : (nm ++ '{' :: (ar ++ ['}'])).takeWhile Char.isAlpha = nm := by
    rw [takeWhile_append_all _ halpha]
    rw [List.takeWhile_cons_of_neg (by decide : ¬ Char.isAlpha '{' = true)]
    exact List.append_nil nm
  have h2 : (nm ++ '{' :: (ar ++ ['}'])).dropWhile Char.isAlpha
      = '{' :: (ar ++ ['}']) := by
    rw [dropWhile_append_all _ halpha]
    exact List.dropWhile_cons_of_neg (by decide : ¬ Char.isAlpha '{' = true)
  have h3 : (ar ++ ['}']).takeWhile (fun c => !(c == '}')) = ar := by
    rw [takeWhile_append_all _ (fun c hc => by simp [har c hc])]
    rw [show List.takeWhile (fun c => !(c == '}')) ['}'] = ([] : List Char) from rfl]
    exact List.append_nil ar
  have h4 : (ar ++ ['}']).dropWhile (fun c => !(c == '}')) = ['}'] := by
    rw [dropWhile_append_all _ (fun c hc => by simp [har c hc])]
    rfl
  have h5 : nm.isEmpty = false := by
    cases nm with
    | nil => exact absurd rfl hnm
    | cons a t => rfl
  simp only [cmdMatch, h1, h2, h3, h4, h5]
  simp

theorem subCmds_whole (cs : List Char) (h : cmdMatch cs = some (cs, []))
    (hne : cs ≠ []) : subCmds cs = (cmdPh 0, [cs]) := by
  match cs, hne with
  | c :: rest, _ =>
    show subCmdsAux (c :: rest).length (c :: rest) 0 = _
    rw [List.length_cons]
    rw [subCmdsAux]
    rw [h]
    simp [subCmdsAux_nil]

/-! ## Claims about the text normalizer -/

/-- C1: `normalize_text "[Docs](https://example.com/a_b)"` produces the
hyperlink `\href{https://example.com/a_b}{Docs}`: the target string is the
captured URL byte-for-byte (the `_` is not escaped), and the display text
`Docs` is escaped and formatted independently. -/
theorem C1_link_target_unescaped :
    normalize_text "[Docs](https://example.com/a_b)"
      = "\\href\x7bhttps://example.com/a_b\x7d\x7bDocs\x7d" := by decide

/-- C2: normalization is not idempotent on escaped output: `"50% done"`
normalizes to `"50\% done"`, and normalizing that once more re-escapes the
`%`, giving a different string. -/
theorem C2_not_idempotent_on_escaped :
    normalize_text "50% done" = "50\\% done" ∧
      normalize_text (normalize_text "50% done") ≠ normalize_text "50% done" := by
  decide

/-- C4: in the inline-formatting stage bold is matched before italic, so
`**x**` becomes one bold construct (not two italic markers around an empty
bold), and the mixed example rewrites all three span kinds with no residual
backtick or asterisk markdown tokens. -/
theorem C4_formatting_order :
    apply_formatting "**x**" = "\\textbf\x7bx\x7d" ∧
      normalize_text "**bold** and *italic* and `code`"
        = "\\textbf\x7bbold\x7d and \\textit\x7bitalic\x7d and \\texttt\x7bcode\x7d" := by
  decide

/-- C3 (counterexample): `\ref{[a](b)}` is a single raw passthrough macro —
a backslash, letters `ref`, then a brace-delimited argument `[a](b)` — yet
`normalize_text` does not return it unchanged: the link scan runs first and
rewrites the argument to `\href{b}{a}`. -/
theorem C3_counterexample :
    (("ref".data ≠ []) ∧ (∀ c ∈ "ref".data, c.isAlpha = true) ∧
        (∀ c ∈ "[a](b)".data, (c == '}') = false)) ∧
      normalize_text ("\\" ++ "ref" ++ "\x7b" ++ "[a](b)" ++ "\x7d")
        ≠ "\\" ++ "ref" ++ "\x7b" ++ "[a](b)" ++ "\x7d" := by
  decide

/-- C3 (amended): an input that is a single raw passthrough macro —
backslash, one or more letters, a brace-delimited argument — is returned
exactly, provided the link scan finds no markdown link inside it (the macro
extraction runs only after link extraction). -/
theorem C3_single_macro_passthrough (name arg : String)
    (hname : name.data ≠ [])
    (halpha : ∀ c ∈ name.data, c.isAlpha = true)
    (harg : ∀ c ∈ arg.data, (c == '}') = false)
    (hnolink : subLinks ("\\" ++ name ++ "\x7b" ++ arg ++ "\x7d").data
        = (("\\" ++ name ++ "\x7b" ++ arg ++ "\x7d").data, [])) :
    normalize_text ("\\" ++ name ++ "\x7b" ++ arg ++ "\x7d")
      = "\\" ++ name ++ "\x7b" ++ arg ++ "\x7d" := by
  have hdata : ("\\" ++ name ++ "\x7b" ++ arg ++ "\x7d").data
      = '\\' :: (name.data ++ '{' :: (arg.data ++ ['}'])) := by
    simp [String.data_append]
  have hne : ("\\" ++ name ++ "\x7b" ++ arg ++ "\x7d").data ≠ [] := by
    rw [hdata]; exact List.cons_ne_nil _ _
  have hcm : cmdMatch ("\\" ++ name ++ "\x7b" ++ arg ++ "\x7d").data
      = some (("\\" ++ name ++ "\x7b" ++ arg ++ "\x7d").data, []) := by
    rw [hdata]
    exact cmdMatch_single name.data arg.data hname halpha harg
  have hsub := subCmds_whole _ hcm hne
  show String.mk (normalize_textL ("\\" ++ name ++ "\x7b" ++ arg ++ "\x7d").data)
      = "\\" ++ name ++ "\x7b" ++ arg ++ "\x7d"
  rw [normalize_textL]
  rw [hnolink]
  rw [show ((("\\" ++ name ++ "\x7b" ++ arg ++ "\x7d").data, ([] : List (List Char × List Char)))).1
      = ("\\" ++ name ++ "\x7b" ++ arg ++ "\x7d").data from rfl]
  rw [hsub]
  rw [show apply_formattingL (escape_latexL (cmdPh 0)) = cmdPh 0 from by decide]
  rw [show restoreCmdsAux (cmdPh 0) 0 [("\\" ++ name ++ "\x7b" ++ arg ++ "\x7d").data]
      = replaceAll (cmdPh 0) ("\\" ++ name ++ "\x7b" ++ arg ++ "\x7d").data (cmdPh 0) from rfl]
  rw [replaceAll_self _ _ (by decide)]
  rfl

/-- Witness for the amended C3 statement at the spec's own example
`\ref{fig:one}`. -/
theorem C3_single_macro_passthrough_witness :
    normalize_text ("\\" ++ "ref" ++ "\x7b" ++ "fig:one" ++ "\x7d")
      = "\\" ++ "ref" ++ "\x7b" ++ "fig:one" ++ "\x7d" :=
  C3_single_macro_passthrough "ref" "fig:one" (by decide) (by decide) (by decide)
    (by decide)

/-! ## Claims about structured list items -/

theorem isPrefixOf_append_self (l t : List Char) : l.isPrefixOf (l ++ t) = true := by
  induction l with
  | nil => simp [List.isPrefixOf_nil_left]
  | cons a as ih => simp [List.isPrefixOf, ih]

theorem hasItemMarker_item (s : String) : hasItemMarker ("\\item " ++ s) = true := by
  unfold hasItemMarker
  rw [String.data_append]
  exact isPrefixOf_append_self _ _

theorem isPrefixOf_item_b (l : List Char) :
    List.isPrefixOf "\\item ".data ('\\' :: 'b' :: l) = false := by
  have hib : (('i' : Char) == 'b') = false := by decide
  show List.isPrefixOf ('\\' :: 'i' :: 't' :: 'e' :: 'm' :: ' ' :: ([] : List Char))
      ('\\' :: 'b' :: l) = false
  simp [List.isPrefixOf, hib]

theorem hasItemMarker_verb (fs body : String) :
    hasItemMarker (verbBlock fs body) = false := by
  unfold hasItemMarker verbBlock
  repeat rw [String.data_append]
  rw [show ("\\begin\x7bVerbatim\x7d[fontsize=\\" : String).data
      = '\\' :: 'b' :: "egin\x7bVerbatim\x7d[fontsize=\\".data from rfl]
  simp only [List.cons_append, List.append_assoc]
  exact isPrefixOf_item_b _

theorem str_empty_append (s : String) : "" ++ s = s := rfl

theorem renderParts_clean_rest (fs : String) (parts : List ItemPart)
    (h : parts.all textPartClean = true) :
    markerCount (renderParts fs false parts) = 0 := by
  induction parts with
  | nil => rfl
  | cons p rest ih =>
    simp only [List.all_cons, Bool.and_eq_true] at h
    cases p with
    | text t =>
      have ht : hasItemMarker (normalize_text t) = false := by
        simpa [textPartClean] using h.1
      have hr := ih h.2
      unfold markerCount at hr ⊢
      rw [show renderParts fs false (ItemPart.text t :: rest)
          = ("" ++ normalize_text t) :: renderParts fs false rest from rfl]
      rw [List.countP_cons, str_empty_append, ht, hr]
      simp
    | code c =>
      have hr := ih h.2
      unfold markerCount at hr ⊢
      rw [show renderParts fs false (ItemPart.code c :: rest)
          = verbBlock fs (rstrip c) :: renderParts fs false rest from rfl]
      rw [List.countP_cons, hasItemMarker_verb, hr]
      simp

/-- C5 (amended): rendering a structured list item emits the `\item ` marker
exactly when its first part is a text part (the marker is attached to that
first emission); when the first part is a code part, no marker at all is
emitted.  The cleanliness hypothesis rules out text parts that smuggle the
literal marker characters into their own prose. -/
theorem C5_marker_amended (d : DictItem)
    (hclean : d.parts.tail.all textPartClean = true) :
    (∀ t rest, d.parts = ItemPart.text t :: rest →
        markerCount (renderDictItem d) = 1 ∧
        (renderDictItem d).head? = some ("\\item " ++ normalize_text t)) ∧
    (∀ c rest, d.parts = ItemPart.code c :: rest →
        markerCount (renderDictItem d) = 0) := by
  constructor
  · intro t rest hp
    have hclean' : rest.all textPartClean = true := by
      rw [hp] at hclean
      simpa using hclean
    have hne : d.parts.isEmpty = false := by rw [hp]; rfl
    have hrd : renderDictItem d
        = renderParts (d.font_size.getD "small") true d.parts := by
      simp [renderDictItem, hne]
    rw [hrd, hp]
    rw [show renderParts (d.font_size.getD "small") true (ItemPart.text t :: rest)
        = ("\\item " ++ normalize_text t)
            :: renderParts (d.font_size.getD "small") false rest from rfl]
    refine ⟨?_, rfl⟩
    unfold markerCount
    rw [List.countP_cons, hasItemMarker_item]
    rw [show List.countP hasItemMarker
        (renderParts (d.font_size.getD "small") false rest) = 0 from
      renderParts_clean_rest (d.font_size.getD "small") rest hclean']
    simp
  · intro c rest hp
    have hclean' : rest.all textPartClean = true := by
      rw [hp] at hclean
      simpa using hclean
    have hne : d.parts.isEmpty = false := by rw [hp]; rfl
    have hrd : renderDictItem d
        = renderParts (d.font_size.getD "small") true d.parts := by
      simp [renderDictItem, hne]
    rw [hrd, hp]
    rw [show renderParts (d.font_size.getD "small") true (ItemPart.code c :: rest)
        = verbBlock (d.font_size.getD "small") (rstrip c)
            :: renderParts (d.font_size.getD "small") false rest from rfl]
    unfold markerCount
    rw [List.countP_cons, hasItemMarker_verb]
    rw [show List.countP hasItemMarker
        (renderParts (d.font_size.getD "small") false rest) = 0 from
      renderParts_clean_rest (d.font_size.getD "small") rest hclean']
    simp

/-- C5 (counterexample): a structured item whose parts list is the single
code part `"x"` is a structured item with non-empty parts, yet its
rendering emits no list-marker at all — not the exactly-one marker the
claim asserts for every structured item. -/
theorem C5_counterexample :
    sampleDictCodeFirst.parts ≠ [] ∧
      markerCount (renderDictItem sampleDictCodeFirst) ≠ 1 ∧
      markerCount (renderDictItem sampleDictCodeFirst) = 0 := by decide

/-- Witness for the amended C5 statement: a text-first structured item
emits exactly one marker, on its first emission. -/
theorem C5_marker_amended_witness :
    markerCount (renderDictItem sampleDictTextFirst) = 1 ∧
      (renderDictItem sampleDictTextFirst).head?
        = some ("\\item " ++ normalize_text "alpha") :=
  (C5_marker_amended sampleDictTextFirst (by decide)).1 "alpha"
    [ItemPart.code "beta"] rfl

theorem renderParts_code_at (fs : String) (parts : List ItemPart) :
    ∀ (first : Bool) (i : Nat) (c : String),
      parts[i]? = some (ItemPart.code c) →
      (renderParts fs first parts)[i]? = some (verbBlock fs (rstrip c)) := by
  induction parts with
  | nil =>
    intro first i c h
    simp at h
  | cons p rest ih =>
    intro first i c h
    cases i with
    | zero =>
      cases p with
      | text t => simp at h
      | code c2 =>
        simp at h
        rw [show renderParts fs first (ItemPart.code c2 :: rest)
            = verbBlock fs (rstrip c2) :: renderParts fs false rest from rfl]
        simp [h]
    | succ n =>
      cases p with
      | text t =>
        rw [show renderParts fs first (ItemPart.text t :: rest)
            = ((if first then "\\item " else "") ++ normalize_text t)
                :: renderParts fs false rest from rfl]
        simp only [List.getElem?_cons_succ] at h ⊢
        exact ih false n c h
      | code c2 =>
        rw [show renderParts fs first (ItemPart.code c2 :: rest)
            = verbBlock fs (rstrip c2) :: renderParts fs false rest from rfl]
        simp only [List.getElem?_cons_succ] at h ⊢
        exact ih false n c h

/-- C6 (amended): every code part of a structured list item is emitted as a
fixed-width `Verbatim` block whose body is the code with trailing
whitespace stripped (`str.rstrip()`), at the item's `font_size` option with
default `"small"` when unset; apart from that stripping the body is
byte-for-byte the given code. -/
theorem C6_code_block_amended (d : DictItem) (i : Nat) (c : String)
    (hne : d.parts ≠ []) (h : d.parts[i]? = some (ItemPart.code c)) :
    (renderDictItem d)[i]?
      = some (verbBlock (d.font_size.getD "small") (rstrip c)) := by
  have hne' : d.parts.isEmpty = false := by
    cases hp : d.parts with
    | nil => exact absurd hp hne
    | cons a l => rfl
  have hrd : renderDictItem d
      = renderParts (d.font_size.getD "small") true d.parts := by
    simp [renderDictItem, hne']
  rw [hrd]
  exact renderParts_code_at _ d.parts true i c h

/-- C6 (counterexample): the code part `"x "` (trailing blank) is not
emitted byte-for-byte: the emitted block carries body `"x"`, which differs
from the block the claim predicts for the body `"x "`. -/
theorem C6_counterexample :
    renderDictItem sampleDictCodeTrailing = [verbBlock "small" "x"] ∧
      verbBlock "small" "x" ≠ verbBlock "small" "x " := by decide

/-- Witness for the amended C6 statement. -/
theorem C6_code_block_amended_witness :
    (renderDictItem sampleDictCodeTrailing)[0]?
      = some (verbBlock "small" (rstrip "x ")) :=
  C6_code_block_amended sampleDictCodeTrailing 0 "x " (by decide) (by decide)

/-! ## Claims about the content loader and document configuration -/

/-- C7: a content record whose `type` discriminator is none of `embed`,
`paragraph`, `itemize`, `image`, `code` is silently skipped by the loader:
no error is raised and no content node is appended, so the loaded content
list is the same as if the record were absent. -/
theorem C7_unknown_type_skipped (pre : List RawRecord) (r : RawRecord)
    (post : List RawRecord)
    (h : r.type ∉ ["embed", "paragraph", "itemize", "image", "code"]) :
    loadContent (pre ++ r :: post) = loadContent (pre ++ post) := by
  have h1 : ¬ r.type = "embed" := fun hh => h (by simp [hh])
  have h2 : ¬ r.type = "paragraph" := fun hh => h (by simp [hh])
  have h3 : ¬ r.type = "itemize" := fun hh => h (by simp [hh])
  have h4 : ¬ r.type = "image" := fun hh => h (by simp [hh])
  have h5 : ¬ r.type = "code" := fun hh => h (by simp [hh])
  induction pre with
  | nil =>
    show loadContent (r :: post) = loadContent post
    rw [loadContent]
    rw [if_neg h1, if_neg h2, if_neg h3, if_neg h4, if_neg h5]
  | cons p pre ih =>
    show loadContent (p :: (pre ++ r :: post)) = loadContent (p :: (pre ++ post))
    rw [loadContent, loadContent]
    rw [ih]

/-- Witness for C7 at a concrete unknown discriminator. -/
theorem C7_unknown_type_skipped_witness :
    loadContent [unknownRecord] = Except.ok [] :=
  (C7_unknown_type_skipped [] unknownRecord [] (by decide)).trans rfl

/-- C8: the title's version and date are determined by the last revision
entry when the history is nonempty; an empty history yields the fixed
placeholder version `0.1.0`, the `\today` date marker, and no
revision-history emissions at all. -/
theorem C8_version_date_defaults (cfg : DocumentConfig) :
    (∀ e, cfg.revision_history.getLast? = some e →
        cfg.version = e.version ∧ cfg.latest_date = formatDateYmd e.date) ∧
    (cfg.revision_history = [] →
        cfg.version = "0.1.0" ∧ cfg.latest_date = some "\\today" ∧
          renderRevisions cfg.revision_history = []) := by
  constructor
  · intro e he
    unfold DocumentConfig.version DocumentConfig.latest_date
    rw [he]
    exact ⟨rfl, rfl⟩
  · intro he
    unfold DocumentConfig.version DocumentConfig.latest_date
    rw [he]
    exact ⟨rfl, rfl, rfl⟩

/-- Witness for C8: a two-entry history and an empty history. -/
theorem C8_version_date_defaults_witness :
    sampleCfgTwoRevs.version = "1.1" ∧
      sampleCfgTwoRevs.latest_date = formatDateYmd "2024-02-01" ∧
      sampleCfgEmpty.version = "0.1.0" ∧
      sampleCfgEmpty.latest_date = some "\\today" ∧
      renderRevisions sampleCfgEmpty.revision_history = [] := by
  obtain ⟨h1, -⟩ := C8_version_date_defaults sampleCfgTwoRevs
  obtain ⟨-, h2⟩ := C8_version_date_defaults sampleCfgEmpty
  obtain ⟨ha, hb⟩ := h1 ⟨"1.1", "2024-02-01", ["fix a", "fix b"]⟩ rfl
  exact ⟨ha, hb, (h2 rfl).1, (h2 rfl).2.1, (h2 rfl).2.2⟩

/-- C9: the revision history `[("1.0","2024-01-01",["init"]),
("1.1","2024-02-01",["fix a","fix b"])]` renders as the fixed table header,
exactly three data rows — the third belonging to version `1.1` with blank
version and date cells — and the fixed footer. -/
theorem C9_revision_table_rows :
    renderRevisions
        [⟨"1.0", "2024-01-01", ["init"]⟩, ⟨"1.1", "2024-02-01", ["fix a", "fix b"]⟩]
      = ["\\vspace\x7b1em\x7d", "\n",
         "\\begin\x7bcenter\x7d\\textit\x7bRevision History\x7d\\end\x7bcenter\x7d",
         "\n", "\\begin\x7bcenter\x7d", "\\small",
         "\\renewcommand\x7b\\arraystretch\x7d\x7b1.75\x7d",
         "\\begin\x7btabular\x7d\x7b@\x7b\x7drll@\x7b\x7d\x7d",
         "\\textit\x7bVersion\x7d & \\textit\x7bDate\x7d & \\textit\x7bDescription\x7d \\\\",
         "\\hline",
         "1.0 & 2024-01-01 & init \\\\",
         "1.1 & 2024-02-01 & fix a \\\\",
         "& & fix b \\\\",
         "\\end\x7btabular\x7d", "\\end\x7bcenter\x7d", "\n", "\\newpage"] := by
  decide

/-- C10 (counterexample): `"2024-1-1"` is not in the exact `YYYY-MM-DD`
shape (its month and day are single digits), yet `latest_date` does not
raise: `datetime.strptime`'s `%m`/`%d` accept one- or two-digit fields, so
a date is returned and reformatted. -/
theorem C10_counterexample :
    claimExactYmdShape "2024-1-1" = false ∧
      strptimeYmd "2024-1-1" = some (2024, 1, 1) ∧
      sampleCfgLenientDate.latest_date = some "January 01, 2024" := by decide

/-- C10 (amended): with a nonempty revision history, `latest_date` requires
the last entry's date to be accepted by the `%Y-%m-%d` parse (four-digit
year, one- or two-digit month and day, whole string consumed, valid
calendar date): a date that fails to parse raises (no date is returned),
and a date that parses is reformatted as month name, zero-padded day, and
year. -/
theorem C10_date_parse_amended (cfg : DocumentConfig) (e : RevisionEntry)
    (h : cfg.revision_history.getLast? = some e) :
    (strptimeYmd e.date = none → cfg.latest_date = none) ∧
    (∀ y m d, strptimeYmd e.date = some (y, m, d) →
        cfg.latest_date = some (monthName m ++ " " ++ pad2 d ++ ", " ++ toString y)) := by
  unfold DocumentConfig.latest_date
  rw [h]
  unfold formatDateYmd
  constructor
  · intro hn
    show Option.map (fun t => strftimeBdY t.1 t.2.1 t.2.2) (strptimeYmd e.date) = none
    rw [hn]
    rfl
  · intro y m d hs
    show Option.map (fun t => strftimeBdY t.1 t.2.1 t.2.2) (strptimeYmd e.date)
        = some (monthName m ++ " " ++ pad2 d ++ ", " ++ toString y)
    rw [hs]
    rfl

/-- Witness for the amended C10 statement at the parse of `2024-02-01`. -/
theorem C10_date_parse_amended_witness :
    sampleCfgTwoRevs.latest_date
      = some (monthName 2 ++ " " ++ pad2 1 ++ ", " ++ toString 2024) :=
  (C10_date_parse_amended sampleCfgTwoRevs
    ⟨"1.1", "2024-02-01", ["fix a", "fix b"]⟩ rfl).2 2024 2 1 (by decide)
